import Mathlib

/-!
# Gophermart: order admission, accrual reconciliation and the balance ledger

A shallow embedding of `internal/services/order.go`, `internal/services/balance.go`,
`internal/handlers/order.go` and the ledger operations of
`internal/repository/postgres.go`.

Modelling conventions.

* The PostgreSQL database behind `Repository` is the explicit state `Ledger`: one list of
  rows per table, in insertion order.  `INSERT` appends a row, `UPDATE ... WHERE` rewrites
  every matching row, `QueryRow(...).Scan` reads the first matching row and reports
  `pgx.ErrNoRows` when there is none.  A transaction that returns an error is rolled back,
  so the state it returns is the state it started from.
* Go `string` is `String`; `number[i]` is the `i`-th byte of its UTF-8 encoding.
* Monetary amounts.  The store keeps exact numeric values and computes with them exactly.
  A Go `float32` value is the rational it denotes; every `Scan` of a stored amount into a
  `float32` variable or field rounds it (`float32` below), and the Go comparisons are made on
  the rounded values.
* A transaction of the repository is one atomic step; a service method that runs statements
  before its transaction can be interleaved with other calls between the two.
* `time.Now()` is an explicit argument `now`.  The `updated_at` bookkeeping columns are
  written but never read by any query and are left out of the rows.
* The store itself is taken to be available: connection and I/O failures are not modelled,
  every other error path of the source is.
-/

namespace Gophermart

/-! ## Errors -/

/-- Go `error` values: the four package-level `errors.New` values of `services`, compared by
identity, and the values built by `fmt.Errorf`, which carry their text. -/
inductive GoError where
  | ErrInvalidOrderNumber
  | ErrOrderExists
  | ErrOrderExistsForOtherUser
  | ErrInsufficientFunds
  | Errorf (text : String)
deriving DecidableEq, Repr

/-- The `err.Error()` text. -/
def GoError.Error : GoError → String
  | .ErrInvalidOrderNumber => "invalid order number"
  | .ErrOrderExists => "order already exists"
  | .ErrOrderExistsForOtherUser => "order already exists for another user"
  | .ErrInsufficientFunds => "insufficient funds"
  | .Errorf text => text

/-! ## Go `float32` -/

/-- The integer nearest to `y`; of the two nearest ones the even one when `y` lies halfway. -/
def roundHalfEven (y : ℚ) : ℤ :=
  if y - ⌊y⌋ < 1 / 2 then ⌊y⌋
  else if 1 / 2 < y - ⌊y⌋ then ⌊y⌋ + 1
  else if ⌊y⌋ % 2 = 0 then ⌊y⌋ else ⌊y⌋ + 1

/-- The loop that counts how often `n` can be halved before it is below 2; `fuel` bounds the
number of steps. -/
def log2Loop : ℕ → ℕ → ℕ
  | 0, _ => 0
  | fuel + 1, n => if n < 2 then 0 else log2Loop fuel (n / 2) + 1

/-- The position of the leading binary digit of `n`: `2 ^ natLog2 n ≤ n < 2 ^ (natLog2 n + 1)`
for `n ≥ 1`. -/
def natLog2 (n : ℕ) : ℕ := log2Loop n n

/-- The binary exponent of a positive rational: `2 ^ floorLog2 a ≤ a < 2 ^ (floorLog2 a + 1)`. -/
def floorLog2 (a : ℚ) : ℤ :=
  let k : ℤ := (natLog2 a.num.natAbs : ℤ) - (natLog2 a.den : ℤ)
  if (2 : ℚ) ^ k ≤ a then k else k - 1

/-- The exponent of the last binary digit a `float32` keeps of the magnitude `a`: 24
significant digits, and never below `2 ^ (-149)`, the spacing of the subnormal numbers. -/
def float32.exponent (a : ℚ) : ℤ :=
  max (floorLog2 a - 23) (-149)

/-- The conversion to `float32` of a magnitude `a ≥ 0`: the nearest multiple of
`2 ^ float32.exponent a`, a tie going to the even multiple. -/
def float32.magnitude (a : ℚ) : ℚ :=
  if a = 0 then 0 else (roundHalfEven (a / 2 ^ float32.exponent a) : ℚ) * 2 ^ float32.exponent a

/-- The Go conversion `float32(x)` of an exact value, as a `Scan` into a `float32` performs it:
IEEE 754 binary32 rounding to nearest, ties to even.  A magnitude beyond the largest finite
`float32` converts to an infinity in Go; here it converts to a rational of at least `2 ^ 128`,
which compares with every finite `float32` as the infinity does. -/
def float32 (x : ℚ) : ℚ := if x < 0 then - float32.magnitude (-x) else float32.magnitude x

/-! ## models

The fields of type `float32` hold the rational that the `float32` value denotes. -/

/-- The struct `models.UserBalance`. -/
structure UserBalance where
  Current : ℚ
  Withdrawn : ℚ
deriving DecidableEq, Repr

/-- The struct `models.Order`. -/
structure Order where
  Number : String
  Status : String
  Accrual : ℚ
  CreatedAt : Nat
deriving DecidableEq, Repr

/-! ## The store -/

/-- A row of table `orders`. -/
structure OrderRow where
  user_id : Int
  number : String
  status : String
  accrual : ℚ
  uploaded_at : Nat
deriving DecidableEq, Repr

/-- A row of table `user_balances`. -/
structure BalanceRow where
  user_id : Int
  current_balance : ℚ
  withdrawn_balance : ℚ
deriving DecidableEq, Repr

/-- A row of table `withdrawals`. -/
structure WithdrawalRow where
  user_id : Int
  order_number : String
  sum : ℚ
  created_at : Nat
deriving DecidableEq, Repr

/-- Modelled from the spec: `migrations/001_init.sql`, which declares the tables, is not part
of the sources.  The database behind `Repository` holds the three entities of the data model,
orders, balances and withdrawals, each table with the columns the queries of the repository
name; the amount columns hold exact numeric values and no constraint of the schema rejects a
row these statements write. -/
structure Ledger where
  orders : List OrderRow
  user_balances : List BalanceRow
  withdrawals : List WithdrawalRow
deriving DecidableEq, Repr

/-- The freshly migrated database. -/
def Ledger.empty : Ledger := ⟨[], [], []⟩

/-- Modelled from the spec: the column default is declared in `migrations/001_init.sql`, which
is not part of the sources.  The `INSERT` of `Repository.CreateOrder` leaves column `accrual`
to its default; the order queries scan that column into a `float32` and the data model has
the accrual non-negative, so the default is the zero amount. -/
def orders_accrual_default : ℚ := 0

/-! ## internal/services/order.go: `isValidLuhn` -/

/-- The call `strconv.Atoi(string(number[i]))` on one byte: the digit value for the bytes
`'0'`..`'9'`, an error (`none`) for every other byte. -/
def atoiByte (b : UInt8) : Option Nat :=
  if 48 ≤ b.toNat ∧ b.toNat ≤ 57 then some (b.toNat - 48) else none

/-- The loop of `isValidLuhn`; the bytes are given in the order the loop visits them
(`i = len(number)-1` down to `0`), `sum` and `alternate` are the loop variables. -/
def isValidLuhn.loop : List UInt8 → Nat → Bool → Bool
  | [], sum, _ => sum % 10 == 0
  | b :: rest, sum, alternate =>
    match atoiByte b with
    | none => false
    | some n =>
      let n := if alternate then (if n * 2 > 9 then (n * 2) % 10 + 1 else n * 2) else n
      isValidLuhn.loop rest (sum + n) (!alternate)

/-- The function `isValidLuhn`. -/
def isValidLuhn (number : String) : Bool :=
  isValidLuhn.loop number.toUTF8.data.toList.reverse 0 false

/-! ## internal/repository/postgres.go

The SQL statements first, each as a function on the rows of its table, then the methods of
`Repository` that issue them. -/

/-- The query `SELECT user_id FROM orders WHERE number = $1` read by `QueryRow`. -/
def selectOrder (orders : List OrderRow) (number : String) : Option OrderRow :=
  orders.find? (fun o => o.number == number)

/-- The query `SELECT current_balance, withdrawn_balance FROM user_balances
WHERE user_id = $1` read by `QueryRow`. -/
def selectBalance (user_balances : List BalanceRow) (userID : Int) : Option BalanceRow :=
  user_balances.find? (fun b => b.user_id == userID)

/-- The statement `UPDATE orders SET status = $1, accrual = $2 WHERE number = $4`. -/
def updateOrder (orders : List OrderRow) (number status : String) (accrual : ℚ) :
    List OrderRow :=
  orders.map fun o =>
    if o.number = number then { o with status := status, accrual := accrual } else o

/-- The statement `UPDATE user_balances SET current_balance = current_balance + $1
WHERE user_id = $3`. -/
def creditBalance (user_balances : List BalanceRow) (userID : Int) (amount : ℚ) :
    List BalanceRow :=
  user_balances.map fun r =>
    if r.user_id = userID then { r with current_balance := r.current_balance + amount } else r

/-- The statement `UPDATE user_balances SET current_balance = current_balance - $1,
withdrawn_balance = withdrawn_balance + $1 WHERE user_id = $3`. -/
def debitBalance (user_balances : List BalanceRow) (userID : Int) (sum : ℚ) :
    List BalanceRow :=
  user_balances.map fun r =>
    if r.user_id = userID then
      { r with current_balance := r.current_balance - sum,
               withdrawn_balance := r.withdrawn_balance + sum }
    else r

/-- The method `Repository.CreateOrder`. -/
def Repository.CreateOrder (db : Ledger) (userID : Int) (number : String) (now : Nat) :
    Ledger × Option GoError :=
  let rowExists := db.orders.any (fun o => o.number == number)
  if rowExists then
    match selectOrder db.orders number with
    | none => (db, some (.Errorf "failed to get order user: no rows in result set"))
    | some o =>
      let orderUserID := o.user_id
      if orderUserID = userID then
        (db, some (.Errorf "order already exists"))
      else
        (db, some (.Errorf ("order with number " ++ number ++ " already exists for another user")))
  else
    ({ db with orders := db.orders ++ [⟨userID, number, "NEW", orders_accrual_default, now⟩] },
      none)

/-- The method `Repository.GetUserBalance`; the row is scanned into the `float32` fields of
`models.UserBalance`. -/
def Repository.GetUserBalance (db : Ledger) (userID : Int) : Ledger × UserBalance :=
  match selectBalance db.user_balances userID with
  | some b => (db, ⟨float32 b.current_balance, float32 b.withdrawn_balance⟩)
  | none => ({ db with user_balances := db.user_balances ++ [⟨userID, 0, 0⟩] }, ⟨0, 0⟩)

/-- The method `Repository.CreateWithdrawal` (one transaction); the balance is scanned into
`var currentBalance float32`. -/
def Repository.CreateWithdrawal (db : Ledger) (userID : Int) (orderNumber : String) (sum : ℚ)
    (now : Nat) : Ledger × Option GoError :=
  match selectBalance db.user_balances userID with
  | none => (db, some (.Errorf "failed to get user balance: no rows in result set"))
  | some b =>
    let currentBalance := float32 b.current_balance
    if currentBalance < sum then
      (db, some (.Errorf "insufficient funds"))
    else
      ({ db with
          withdrawals := db.withdrawals ++ [⟨userID, orderNumber, sum, now⟩]
          user_balances := debitBalance db.user_balances userID sum },
        none)

/-- The method `Repository.GetProcessingOrders`: the rows with status `NEW` or `PROCESSING`,
ordered by `uploaded_at` ascending (rows uploaded at the same instant keep table order), each
scanned into a `models.Order`. -/
def Repository.GetProcessingOrders (db : Ledger) : List Order :=
  ((db.orders.filter fun o => o.status == "NEW" || o.status == "PROCESSING").insertionSort
      (fun a b => a.uploaded_at ≤ b.uploaded_at)).map
    fun o => ⟨o.number, o.status, float32 o.accrual, o.uploaded_at⟩

/-- The method `Repository.UpdateOrderStatus` (one transaction).  The scalar subquery
`SELECT user_id FROM orders WHERE number = $3` is evaluated on the updated table; when no
row has that number it is `NULL` and the balance `UPDATE` matches nothing. -/
def Repository.UpdateOrderStatus (db : Ledger) (number : String) (status : String)
    (accrual : ℚ) : Ledger × Option GoError :=
  let db := { db with orders := updateOrder db.orders number status accrual }
  if status = "PROCESSED" ∧ accrual > 0 then
    match selectOrder db.orders number with
    | none => (db, none)
    | some o =>
      ({ db with user_balances := creditBalance db.user_balances o.user_id accrual }, none)
  else
    (db, none)

/-- The method `Repository.UpdateUserBalance`. -/
def Repository.UpdateUserBalance (db : Ledger) (userID : Int) (amount : ℚ) :
    Ledger × Option GoError :=
  let rowExists := db.user_balances.any (fun b => b.user_id == userID)
  if !rowExists then
    ({ db with user_balances := db.user_balances ++ [⟨userID, amount, 0⟩] }, none)
  else
    ({ db with user_balances := creditBalance db.user_balances userID amount }, none)

/-- The method `Repository.CheckOrderExists`: the owner of the order, `0` when there is no
such order. -/
def Repository.CheckOrderExists (db : Ledger) (orderNumber : String) : Int :=
  match selectOrder db.orders orderNumber with
  | none => 0
  | some o => o.user_id

/-! ## internal/services/order.go -/

/-- The struct `accrualResponse`: the decoded JSON body of the accrual system. -/
structure accrualResponse where
  Order : String
  Status : String
  Accrual : ℚ
deriving DecidableEq, Repr

/-- What the HTTP round trip of `checkAccrualStatus` yields: a failure of `client.Do`, or a
response with its status code and its body run through the JSON decoder (`none` when the
decoder fails). -/
inductive AuthorityReply where
  | transportError (text : String)
  | response (StatusCode : Nat) (body : Option accrualResponse)
deriving DecidableEq, Repr

/-- The method `OrderService.checkAccrualStatus`, as a function of the authority's reply:
the returned `(status, accrual)`, or the error. -/
def OrderService.checkAccrualStatus (reply : AuthorityReply) (orderNumber : String) :
    Except GoError (String × ℚ) :=
  match reply with
  | .transportError text => .error (.Errorf text)
  | .response StatusCode body =>
    if StatusCode = 204 then
      .ok ("NEW", 0)
    else if StatusCode ≠ 200 then
      .error (.Errorf ("unexpected status code: " ++ toString StatusCode))
    else
      match body with
      | none => .error (.Errorf "json: cannot decode the response body")
      | some accrualResp =>
        if accrualResp.Order ≠ orderNumber then
          .error (.Errorf ("order number mismatch: expected " ++ orderNumber ++ ", got "
            ++ accrualResp.Order))
        else
          .ok (accrualResp.Status, accrualResp.Accrual)

/-- The body of the inner loop of `OrderService.startAccrualCheck` for one `order` of the
fetched list; every `continue` leaves the state as it is at that point. -/
def OrderService.startAccrualCheck.body (reply : AuthorityReply) (db : Ledger)
    (order : Order) : Ledger :=
  match OrderService.checkAccrualStatus reply order.Number with
  | .error _ => db
  | .ok (status, accrual) =>
    let userID := Repository.CheckOrderExists db order.Number
    match Repository.UpdateOrderStatus db order.Number status accrual with
    | (db, some _) => db
    | (db, none) =>
      if status = "PROCESSED" ∧ accrual > 0 then
        let (db, _) := Repository.GetUserBalance db userID
        match Repository.UpdateUserBalance db userID accrual with
        | (db, some _) => db
        | (db, none) => (Repository.GetUserBalance db userID).1
      else
        db

/-- One tick of `OrderService.startAccrualCheck`: the unresolved orders are fetched once and
the loop body runs for each of them in turn; `authority` gives the accrual system's reply to
the query for each order number during this tick. -/
def OrderService.startAccrualCheck.tick (authority : String → AuthorityReply) (db : Ledger) :
    Ledger :=
  (Repository.GetProcessingOrders db).foldl
    (fun db order => OrderService.startAccrualCheck.body (authority order.Number) db order) db

/-- The method `OrderService.CreateOrder`. -/
def OrderService.CreateOrder (db : Ledger) (userID : Int) (orderNumber : String) (now : Nat) :
    Ledger × Option GoError :=
  if !isValidLuhn orderNumber then
    (db, some .ErrInvalidOrderNumber)
  else
    match Repository.CreateOrder db userID orderNumber now with
    | (db, some err) =>
      if err.Error = "order with number " ++ orderNumber ++ " already exists for another user" then
        (db, some .ErrOrderExistsForOtherUser)
      else if err.Error = "order already exists" then
        (db, some .ErrOrderExists)
      else
        (db, some (.Errorf ("failed to create order: " ++ err.Error)))
    | (db, none) => (db, none)

/-! ## internal/services/balance.go -/

/-- The method `BalanceService.GetBalance`. -/
def BalanceService.GetBalance (db : Ledger) (userID : Int) : Ledger × UserBalance :=
  Repository.GetUserBalance db userID

/-- The method `BalanceService.CreateWithdrawal`; `balance.Current` is the `float32` field that
`GetUserBalance` fills and `amount` is a `float32`. -/
def BalanceService.CreateWithdrawal (db : Ledger) (userID : Int) (orderNumber : String)
    (amount : ℚ) (now : Nat) : Ledger × Option GoError :=
  if !isValidLuhn orderNumber then
    (db, some .ErrInvalidOrderNumber)
  else
    let (db, balance) := Repository.GetUserBalance db userID
    if balance.Current < amount then
      (db, some .ErrInsufficientFunds)
    else
      Repository.CreateWithdrawal db userID orderNumber amount now

/-! ## internal/handlers/order.go -/

/-- The handler `OrderHandler.UploadOrder` for an authenticated request: the HTTP status code
it answers with (`userID` is the identity taken from the request context, `body` the request
body). -/
def OrderHandler.UploadOrder (db : Ledger) (userID : Int) (body : String) (now : Nat) :
    Ledger × Nat :=
  if userID = 0 then
    (db, 401)
  else
    match OrderService.CreateOrder db userID body now with
    | (db, some err) =>
      match err with
      | .ErrInvalidOrderNumber => (db, 422)
      | .ErrOrderExistsForOtherUser => (db, 409)
      | .ErrOrderExists => (db, 200)
      | _ => (db, 500)
    | (db, none) => (db, 202)

/-! ## Sequential executions -/

/-- One step of a sequential execution: a call of a service method, one whole tick of the
reconciliation loop with the replies the accrual system gives during it, or a single pass of
the loop body for an order of a list fetched earlier. -/
inductive Call where
  | CreateOrder (userID : Int) (orderNumber : String) (now : Nat)
  | GetBalance (userID : Int)
  | CreateWithdrawal (userID : Int) (orderNumber : String) (amount : ℚ) (now : Nat)
  | accrualCheck (authority : String → AuthorityReply)
  | accrualCheckOrder (reply : AuthorityReply) (order : Order)

/-- The state after a call. -/
def Call.run (db : Ledger) : Call → Ledger
  | .CreateOrder userID orderNumber now => (OrderService.CreateOrder db userID orderNumber now).1
  | .GetBalance userID => (BalanceService.GetBalance db userID).1
  | .CreateWithdrawal userID orderNumber amount now =>
    (BalanceService.CreateWithdrawal db userID orderNumber amount now).1
  | .accrualCheck authority => OrderService.startAccrualCheck.tick authority db
  | .accrualCheckOrder reply order => OrderService.startAccrualCheck.body reply db order

/-- The state after a sequence of calls, started in `db`. -/
def runCalls (db : Ledger) (calls : List Call) : Ledger :=
  calls.foldl Call.run db

/-! ## Interleaved executions

`BalanceService.CreateWithdrawal` runs `GetUserBalance` and its comparison first and the
transaction of `Repository.CreateWithdrawal` afterwards; another call can run between the two.
For a user who has a balance record `GetUserBalance` is a single `SELECT`.  The store is an
external collaborator of which the specification says that it serialises the transactions
against one balance record; a transaction is therefore one step. -/

/-- The part of `BalanceService.CreateWithdrawal` before the repository transaction: the
validation of the order number, `GetUserBalance` and the comparison of the balance it reports
with the amount.  The error is the one of an early `return`; it is `none` when the method
goes on to `Repository.CreateWithdrawal`. -/
def BalanceService.CreateWithdrawal.check (db : Ledger) (userID : Int) (orderNumber : String)
    (amount : ℚ) : Ledger × Option GoError :=
  if !isValidLuhn orderNumber then
    (db, some .ErrInvalidOrderNumber)
  else
    let (db, balance) := Repository.GetUserBalance db userID
    if balance.Current < amount then
      (db, some .ErrInsufficientFunds)
    else
      (db, none)

/-- A call of `BalanceService.CreateWithdrawal` with its arguments; `now` is the instant of its
transaction. -/
structure WithdrawalCall where
  userID : Int
  orderNumber : String
  amount : ℚ
  now : Nat
deriving DecidableEq, Repr

/-- How far a call of `BalanceService.CreateWithdrawal` has got: not started, past the check
and about to run the repository transaction, or returned with its result. -/
inductive Progress where
  | notStarted
  | checked
  | returned (err : Option GoError)
deriving DecidableEq, Repr

/-- The next step of a call: the check for a call that has not started, the repository
transaction for a call past the check; a call that has returned does nothing more. -/
def WithdrawalCall.step (c : WithdrawalCall) (db : Ledger) : Progress → Ledger × Progress
  | .notStarted =>
    match BalanceService.CreateWithdrawal.check db c.userID c.orderNumber c.amount with
    | (db, some err) => (db, .returned (some err))
    | (db, none) => (db, .checked)
  | .checked =>
    match Repository.CreateWithdrawal db c.userID c.orderNumber c.amount c.now with
    | (db, err) => (db, .returned err)
  | .returned err => (db, .returned err)

/-- The stored available balance of a user (column `current_balance`), `0` for a user without
a balance record; `GetUserBalance` reports its conversion to `float32`. -/
def Ledger.available (db : Ledger) (userID : Int) : ℚ :=
  match selectBalance db.user_balances userID with
  | some b => b.current_balance
  | none => 0

/-- The stored withdrawn total of a user (column `withdrawn_balance`), `0` for a user without
a balance record; `GetUserBalance` reports its conversion to `float32`. -/
def Ledger.withdrawn (db : Ledger) (userID : Int) : ℚ :=
  match selectBalance db.user_balances userID with
  | some b => b.withdrawn_balance
  | none => 0

/-! ## Definitions used in the statements -/

/-- The digit values of a string of decimal digits, rightmost digit first. -/
def digitsFromRight (number : String) : List Nat :=
  number.toUTF8.data.toList.reverse.map fun b => b.toNat - 48

/-- The reference Luhn sum, in the words of the specification: the digits are scanned from
the rightmost; the 1st, 3rd, ... are left untouched, the 2nd, 4th, ... are doubled and 9 is
subtracted from a doubled value above 9. -/
def luhnSumSpec : List Nat → Nat
  | [] => 0
  | [d] => d
  | d₁ :: d₂ :: rest => d₁ + (if 2 * d₂ > 9 then 2 * d₂ - 9 else 2 * d₂) + luhnSumSpec rest

/-- The calls whose requested withdrawal amount, when they have one, is positive. -/
def Call.amountPositive : Call → Prop
  | .CreateWithdrawal _ _ amount _ => 0 < amount
  | _ => True

/-- Every stored withdrawn total is non-negative and every withdrawal record has a positive
amount. -/
def Ledger.WithdrawnOk (db : Ledger) : Prop :=
  (∀ r ∈ db.user_balances, 0 ≤ r.withdrawn_balance) ∧ ∀ w ∈ db.withdrawals, 0 < w.sum

/-- The states a sequence of calls passes through, started in `db`: `db` itself and the state
after each call, in order. -/
def runStates (db : Ledger) : List Call → List Ledger
  | [] => [db]
  | c :: cs => db :: runStates (c.run db) cs

/-! ## Lemmas on the conversion to `float32` -/

theorem float32_zero : float32 0 = 0 := by
  simp [float32, float32.magnitude]

example : float32 16777219 = 16777220 := by decide!

/-! ## Lemmas on the SQL statements -/

theorem selectBalance_nil (v : Int) : selectBalance [] v = none := rfl

theorem selectBalance_cons (r : BalanceRow) (rows : List BalanceRow) (v : Int) :
    selectBalance (r :: rows) v = if r.user_id = v then some r else selectBalance rows v := by
  by_cases h : r.user_id = v <;> simp [selectBalance, List.find?_cons, h]

theorem selectBalance_some {rows : List BalanceRow} {v : Int} {b : BalanceRow}
    (h : selectBalance rows v = some b) : b.user_id = v ∧ b ∈ rows := by
  unfold selectBalance at h
  exact ⟨by simpa using List.find?_some h, List.mem_of_find?_eq_some h⟩

theorem any_eq_isSome_selectBalance (rows : List BalanceRow) (v : Int) :
    rows.any (fun b => b.user_id == v) = (selectBalance rows v).isSome := by
  induction rows with
  | nil => rfl
  | cons r rows ih =>
    rw [selectBalance_cons]
    by_cases h : r.user_id = v <;> simp [List.any_cons, h, ih]

theorem selectBalance_append (rows : List BalanceRow) (r : BalanceRow) (v : Int) :
    selectBalance (rows ++ [r]) v
      = match selectBalance rows v with
        | some b => some b
        | none => if r.user_id = v then some r else none := by
  induction rows with
  | nil => simp [selectBalance_cons, selectBalance_nil]
  | cons x rows ih =>
    rw [List.cons_append, selectBalance_cons, selectBalance_cons, ih]
    by_cases h : x.user_id = v <;> simp [h]

theorem selectBalance_map (f : BalanceRow → BalanceRow) (hf : ∀ r, (f r).user_id = r.user_id)
    (rows : List BalanceRow) (v : Int) :
    selectBalance (rows.map f) v = (selectBalance rows v).map f := by
  induction rows with
  | nil => rfl
  | cons r rows ih =>
    rw [List.map_cons, selectBalance_cons, selectBalance_cons, ih, hf]
    by_cases h : r.user_id = v
    · rw [if_pos h, if_pos h]; rfl
    · rw [if_neg h, if_neg h]

theorem filter_map_other (f : BalanceRow → BalanceRow) (u v : Int)
    (hf : ∀ r, r.user_id ≠ u → f r = r) (hk : ∀ r, (f r).user_id = r.user_id) (hv : v ≠ u)
    (rows : List BalanceRow) :
    (rows.map f).filter (fun b => b.user_id == v) = rows.filter (fun b => b.user_id == v) := by
  induction rows with
  | nil => rfl
  | cons r rows ih =>
    by_cases h : r.user_id = v
    · have : f r = r := hf r (by rw [h]; exact hv)
      simp [List.filter_cons, this, h, ih]
    · simp [List.filter_cons, hk, h, ih]

theorem credit_user_id (u : Int) (a : ℚ) (r : BalanceRow) :
    (if r.user_id = u then { r with current_balance := r.current_balance + a } else r).user_id
      = r.user_id := by
  by_cases h : r.user_id = u
  · rw [if_pos h]
  · rw [if_neg h]

theorem selectBalance_creditBalance (rows : List BalanceRow) (u v : Int) (a : ℚ) :
    selectBalance (creditBalance rows u a) v
      = (selectBalance rows v).map fun r =>
          if r.user_id = u then { r with current_balance := r.current_balance + a } else r :=
  selectBalance_map _ (credit_user_id u a) rows v

theorem filter_creditBalance_other (rows : List BalanceRow) (u v : Int) (a : ℚ) (hv : v ≠ u) :
    (creditBalance rows u a).filter (fun b => b.user_id == v)
      = rows.filter (fun b => b.user_id == v) :=
  filter_map_other _ u v (fun _ hr => if_neg hr) (credit_user_id u a) hv rows

theorem selectOrder_cons (r : OrderRow) (rows : List OrderRow) (n : String) :
    selectOrder (r :: rows) n = if r.number = n then some r else selectOrder rows n := by
  by_cases h : r.number = n <;> simp [selectOrder, List.find?_cons, h]

theorem selectOrder_some {rows : List OrderRow} {n : String} {o : OrderRow}
    (h : selectOrder rows n = some o) : o.number = n ∧ o ∈ rows := by
  unfold selectOrder at h
  exact ⟨by simpa using List.find?_some h, List.mem_of_find?_eq_some h⟩

theorem selectOrder_eq_none {rows : List OrderRow} {n : String} :
    selectOrder rows n = none ↔ ∀ r ∈ rows, r.number ≠ n := by
  unfold selectOrder
  simp [List.find?_eq_none]

theorem any_eq_isSome_selectOrder (rows : List OrderRow) (n : String) :
    rows.any (fun o => o.number == n) = (selectOrder rows n).isSome := by
  induction rows with
  | nil => rfl
  | cons r rows ih =>
    rw [selectOrder_cons]
    by_cases h : r.number = n <;> simp [List.any_cons, h, ih]

theorem selectOrder_append (rows : List OrderRow) (r : OrderRow) (n : String) :
    selectOrder (rows ++ [r]) n
      = match selectOrder rows n with
        | some o => some o
        | none => if r.number = n then some r else none := by
  induction rows with
  | nil => simp [selectOrder_cons, selectOrder]
  | cons x rows ih =>
    rw [List.cons_append, selectOrder_cons, selectOrder_cons, ih]
    by_cases h : x.number = n <;> simp [h]

theorem selectOrder_updateOrder (rows : List OrderRow) (n status : String) (a : ℚ) :
    selectOrder (updateOrder rows n status a) n
      = (selectOrder rows n).map fun o => { o with status := status, accrual := a } := by
  induction rows with
  | nil => rfl
  | cons x rows ih =>
    have ih' : selectOrder (List.map (fun o : OrderRow =>
        if o.number = n then { o with status := status, accrual := a } else o) rows) n
        = _ := ih
    show selectOrder (_ :: List.map _ rows) n = _
    rw [selectOrder_cons, selectOrder_cons, ih']
    by_cases h : x.number = n
    · simp only [if_pos h, Option.map_some']
    · simp only [if_neg h]

theorem updateOrder_updateOrder (rows : List OrderRow) (n status : String) (a : ℚ) :
    updateOrder (updateOrder rows n status a) n status a = updateOrder rows n status a := by
  unfold updateOrder
  rw [List.map_map]
  apply List.map_congr_left
  intro r _
  by_cases h : r.number = n <;> simp [h]

/-! ## The methods, result by result -/

theorem UpdateOrderStatus_eq (db : Ledger) (number status : String) (accrual : ℚ) :
    Repository.UpdateOrderStatus db number status accrual
      = (⟨updateOrder db.orders number status accrual,
          if status = "PROCESSED" ∧ accrual > 0 then
            match selectOrder db.orders number with
            | none => db.user_balances
            | some o => creditBalance db.user_balances o.user_id accrual
          else db.user_balances,
          db.withdrawals⟩, none) := by
  unfold Repository.UpdateOrderStatus
  by_cases hc : status = "PROCESSED" ∧ accrual > 0
  · simp only [if_pos hc, selectOrder_updateOrder]
    cases selectOrder db.orders number <;> rfl
  · simp only [if_neg hc]

theorem UpdateOrderStatus_pair (db : Ledger) (n status : String) (a : ℚ) :
    Repository.UpdateOrderStatus db n status a
      = ((Repository.UpdateOrderStatus db n status a).1, none) := by
  rw [UpdateOrderStatus_eq]

theorem UpdateUserBalance_pair (db : Ledger) (u : Int) (a : ℚ) :
    Repository.UpdateUserBalance db u a = ((Repository.UpdateUserBalance db u a).1, none) := by
  unfold Repository.UpdateUserBalance
  simp only
  by_cases h : (!db.user_balances.any fun b => b.user_id == u) = true
  · rw [if_pos h]
  · rw [if_neg h]

theorem GetUserBalance_eq (db : Ledger) (userID : Int) :
    Repository.GetUserBalance db userID
      = (⟨db.orders,
          match selectBalance db.user_balances userID with
          | some _ => db.user_balances
          | none => db.user_balances ++ [⟨userID, 0, 0⟩],
          db.withdrawals⟩,
        ⟨float32 (db.available userID), float32 (db.withdrawn userID)⟩) := by
  unfold Repository.GetUserBalance Ledger.available Ledger.withdrawn
  cases selectBalance db.user_balances userID with
  | some b => rfl
  | none => simp only [float32_zero]

theorem GetUserBalance_orders (db : Ledger) (userID : Int) :
    (Repository.GetUserBalance db userID).1.orders = db.orders := by
  rw [GetUserBalance_eq]

theorem GetUserBalance_withdrawals (db : Ledger) (userID : Int) :
    (Repository.GetUserBalance db userID).1.withdrawals = db.withdrawals := by
  rw [GetUserBalance_eq]

theorem GetUserBalance_select_self (db : Ledger) (userID : Int) :
    selectBalance (Repository.GetUserBalance db userID).1.user_balances userID
      = some ⟨userID, db.available userID, db.withdrawn userID⟩ := by
  rw [GetUserBalance_eq]
  unfold Ledger.available Ledger.withdrawn
  cases h : selectBalance db.user_balances userID with
  | some b =>
    simp only [h]
    rw [← (selectBalance_some h).1]
  | none => simp [selectBalance_append, h]

theorem GetUserBalance_filter_other (db : Ledger) (userID other : Int) (h : other ≠ userID) :
    (Repository.GetUserBalance db userID).1.user_balances.filter (fun b => b.user_id == other)
      = db.user_balances.filter (fun b => b.user_id == other) := by
  rw [GetUserBalance_eq]
  cases selectBalance db.user_balances userID with
  | some b => rfl
  | none => simp [List.filter_append, List.filter_cons, h.symm]

theorem other_user_text_ne (n : String) :
    "order already exists" ≠ "order with number " ++ n ++ " already exists for another user" := by
  intro h
  have h2 := congrArg String.data h
  simp [String.data_append] at h2

theorem Repository_CreateOrder_eq (db : Ledger) (userID : Int) (number : String) (now : Nat) :
    Repository.CreateOrder db userID number now
      = match selectOrder db.orders number with
        | none =>
          ({ db with orders := db.orders ++ [⟨userID, number, "NEW", orders_accrual_default, now⟩] },
            none)
        | some o =>
          if o.user_id = userID then
            (db, some (.Errorf "order already exists"))
          else
            (db, some (.Errorf
              ("order with number " ++ number ++ " already exists for another user"))) := by
  unfold Repository.CreateOrder
  simp only [any_eq_isSome_selectOrder]
  cases selectOrder db.orders number <;> simp

theorem OrderService_CreateOrder_balances (db : Ledger) (u : Int) (n : String) (now : Nat) :
    (OrderService.CreateOrder db u n now).1.user_balances = db.user_balances
      ∧ (OrderService.CreateOrder db u n now).1.withdrawals = db.withdrawals := by
  unfold OrderService.CreateOrder
  by_cases hl : isValidLuhn n = true
  · simp only [hl, Bool.not_true, Bool.false_eq_true, if_false]
    rw [Repository_CreateOrder_eq]
    cases selectOrder db.orders n with
    | none => exact ⟨rfl, rfl⟩
    | some o =>
      by_cases hu : o.user_id = u
      · simp only [if_pos hu]
        split_ifs <;> exact ⟨rfl, rfl⟩
      · simp only [if_neg hu]
        split_ifs <;> exact ⟨rfl, rfl⟩
  · have hl' : isValidLuhn n = false := by simpa using hl
    rw [hl']
    exact ⟨rfl, rfl⟩

theorem body_eq (reply : AuthorityReply) (db : Ledger) (order : Order) :
    OrderService.startAccrualCheck.body reply db order
      = match OrderService.checkAccrualStatus reply order.Number with
        | .error _ => db
        | .ok (status, accrual) =>
          if status = "PROCESSED" ∧ accrual > 0 then
            (Repository.GetUserBalance
              (Repository.UpdateUserBalance
                (Repository.GetUserBalance
                  (Repository.UpdateOrderStatus db order.Number status accrual).1
                  (Repository.CheckOrderExists db order.Number)).1
                (Repository.CheckOrderExists db order.Number) accrual).1
              (Repository.CheckOrderExists db order.Number)).1
          else
            (Repository.UpdateOrderStatus db order.Number status accrual).1 := by
  unfold OrderService.startAccrualCheck.body
  cases OrderService.checkAccrualStatus reply order.Number with
  | error e => rfl
  | ok p =>
    obtain ⟨status, accrual⟩ := p
    simp only
    rw [UpdateOrderStatus_pair]
    simp only
    by_cases hc : status = "PROCESSED" ∧ accrual > 0
    · simp only [if_pos hc]
      rw [UpdateUserBalance_pair]
    · simp only [if_neg hc]

theorem foldl_body_invariant (P : Ledger → Prop) (authority : String → AuthorityReply)
    (hP : ∀ reply db order, P db → P (OrderService.startAccrualCheck.body reply db order))
    (orders : List Order) (db : Ledger) (h : P db) :
    P (orders.foldl
      (fun db order => OrderService.startAccrualCheck.body (authority order.Number) db order)
      db) := by
  induction orders generalizing db with
  | nil => exact h
  | cons o os ih => exact ih _ (hP _ _ _ h)

/-! ## `isValidLuhn` against the reference sum -/

theorem luhnSumSpec_cons (d : Nat) (l : List Nat) :
    luhnSumSpec (d :: l) = d + luhnSumSpec (0 :: l) := by
  cases l with
  | nil => simp [luhnSumSpec]
  | cons d₂ r => simp [luhnSumSpec]; omega

theorem doubled_adjust (d : Nat) (hd : d ≤ 9) :
    (if d * 2 > 9 then (d * 2) % 10 + 1 else d * 2)
      = (if 2 * d > 9 then 2 * d - 9 else 2 * d) := by
  split <;> split <;> omega

theorem isValidLuhn_loop_spec (bs : List UInt8)
    (hdigits : ∀ b ∈ bs, 48 ≤ b.toNat ∧ b.toNat ≤ 57) :
    (∀ sum, isValidLuhn.loop bs sum false
        = ((sum + luhnSumSpec (bs.map fun b => b.toNat - 48)) % 10 == 0))
      ∧ (∀ sum, isValidLuhn.loop bs sum true
        = ((sum + luhnSumSpec (0 :: bs.map fun b => b.toNat - 48)) % 10 == 0)) := by
  induction bs with
  | nil =>
    constructor <;> intro sum <;> simp [isValidLuhn.loop, luhnSumSpec]
  | cons b rest ih =>
    have hb := hdigits b (List.mem_cons_self _ _)
    have ih := ih (fun x hx => hdigits x (List.mem_cons_of_mem _ hx))
    have hatoi : atoiByte b = some (b.toNat - 48) := by
      unfold atoiByte
      rw [if_pos hb]
    constructor
    · intro sum
      rw [isValidLuhn.loop, hatoi]
      simp only [Bool.false_eq_true, if_false, Bool.not_false, List.map_cons]
      rw [ih.2, luhnSumSpec_cons (b.toNat - 48), Nat.add_assoc]
    · intro sum
      rw [isValidLuhn.loop, hatoi]
      simp only [if_true, Bool.not_true, List.map_cons]
      rw [ih.1, doubled_adjust _ (by omega)]
      simp only [luhnSumSpec]
      congr 2
      omega

/-! ## The available balances stay non-negative -/

theorem mem_runStates_self (calls : List Call) (db : Ledger) : db ∈ runStates db calls := by
  cases calls with
  | nil => exact List.mem_singleton.mpr rfl
  | cons c cs => exact List.mem_cons_self _ _

theorem runCalls_mem_runStates (calls : List Call) (db : Ledger) :
    runCalls db calls ∈ runStates db calls := by
  induction calls generalizing db with
  | nil => exact List.mem_singleton.mpr rfl
  | cons c cs ih => exact List.mem_cons_of_mem _ (ih (Call.run db c))

theorem WithdrawnOk_append (db : Ledger) (u : Int) (x : ℚ) (h : db.WithdrawnOk) :
    Ledger.WithdrawnOk ⟨db.orders, db.user_balances ++ [⟨u, x, 0⟩], db.withdrawals⟩ := by
  refine ⟨fun r hr => ?_, h.2⟩
  rcases List.mem_append.mp hr with hr | hr
  · exact h.1 r hr
  · rw [List.mem_singleton.mp hr]

theorem WithdrawnOk_credit (db : Ledger) (orders : List OrderRow) (u : Int) (a : ℚ)
    (h : db.WithdrawnOk) :
    Ledger.WithdrawnOk ⟨orders, creditBalance db.user_balances u a, db.withdrawals⟩ := by
  refine ⟨fun r hr => ?_, h.2⟩
  obtain ⟨r₀, hr₀, rfl⟩ := List.mem_map.mp hr
  by_cases hu : r₀.user_id = u
  · simp only [if_pos hu]
    exact h.1 r₀ hr₀
  · simp only [if_neg hu]
    exact h.1 r₀ hr₀

theorem WithdrawnOk_debit (db : Ledger) (u : Int) (n : String) (a : ℚ) (now : Nat) (ha : 0 < a)
    (h : db.WithdrawnOk) :
    Ledger.WithdrawnOk
      ⟨db.orders, debitBalance db.user_balances u a, db.withdrawals ++ [⟨u, n, a, now⟩]⟩ := by
  constructor
  · intro r hr
    obtain ⟨r₀, hr₀, rfl⟩ := List.mem_map.mp hr
    have := h.1 r₀ hr₀
    by_cases hu : r₀.user_id = u
    · simp only [if_pos hu]
      linarith
    · simp only [if_neg hu]
      exact this
  · intro w hw
    rcases List.mem_append.mp hw with hw | hw
    · exact h.2 w hw
    · rw [List.mem_singleton.mp hw]
      exact ha

theorem WithdrawnOk_GetUserBalance (db : Ledger) (u : Int) (h : db.WithdrawnOk) :
    (Repository.GetUserBalance db u).1.WithdrawnOk := by
  rw [GetUserBalance_eq]
  cases selectBalance db.user_balances u with
  | some b => exact h
  | none => exact WithdrawnOk_append db u 0 h

theorem WithdrawnOk_Repository_CreateWithdrawal (db : Ledger) (u : Int) (n : String) (a : ℚ)
    (now : Nat) (ha : 0 < a) (h : db.WithdrawnOk) :
    (Repository.CreateWithdrawal db u n a now).1.WithdrawnOk := by
  unfold Repository.CreateWithdrawal
  cases selectBalance db.user_balances u with
  | none => exact h
  | some b =>
    by_cases hlt : float32 b.current_balance < a
    · simp only [if_pos hlt]
      exact h
    · simp only [if_neg hlt]
      exact WithdrawnOk_debit db u n a now ha h

theorem WithdrawnOk_UpdateOrderStatus (db : Ledger) (n status : String) (a : ℚ)
    (h : db.WithdrawnOk) : (Repository.UpdateOrderStatus db n status a).1.WithdrawnOk := by
  rw [UpdateOrderStatus_eq]
  by_cases hc : status = "PROCESSED" ∧ a > 0
  · simp only [if_pos hc]
    cases selectOrder db.orders n with
    | none => exact h
    | some o => exact WithdrawnOk_credit db _ o.user_id a h
  · simp only [if_neg hc]
    exact h

theorem WithdrawnOk_UpdateUserBalance (db : Ledger) (u : Int) (a : ℚ)
    (h : db.WithdrawnOk) : (Repository.UpdateUserBalance db u a).1.WithdrawnOk := by
  unfold Repository.UpdateUserBalance
  simp only
  by_cases hex : (!db.user_balances.any fun b => b.user_id == u) = true
  · rw [if_pos hex]
    exact WithdrawnOk_append db u a h
  · rw [if_neg hex]
    exact WithdrawnOk_credit db _ u a h

theorem WithdrawnOk_body (reply : AuthorityReply) (db : Ledger) (order : Order)
    (h : db.WithdrawnOk) : (OrderService.startAccrualCheck.body reply db order).WithdrawnOk := by
  rw [body_eq]
  cases OrderService.checkAccrualStatus reply order.Number with
  | error e => exact h
  | ok p =>
    obtain ⟨status, accrual⟩ := p
    simp only
    by_cases hc : status = "PROCESSED" ∧ accrual > 0
    · simp only [if_pos hc]
      exact WithdrawnOk_GetUserBalance _ _
        (WithdrawnOk_UpdateUserBalance _ _ _
          (WithdrawnOk_GetUserBalance _ _ (WithdrawnOk_UpdateOrderStatus _ _ _ _ h)))
    · simp only [if_neg hc]
      exact WithdrawnOk_UpdateOrderStatus _ _ _ _ h

theorem WithdrawnOk_BalanceService_CreateWithdrawal (db : Ledger) (u : Int) (n : String)
    (a : ℚ) (now : Nat) (ha : 0 < a) (h : db.WithdrawnOk) :
    (BalanceService.CreateWithdrawal db u n a now).1.WithdrawnOk := by
  unfold BalanceService.CreateWithdrawal
  by_cases hl : isValidLuhn n = true
  · simp only [hl, Bool.not_true, Bool.false_eq_true, if_false]
    have h1 := WithdrawnOk_GetUserBalance db u h
    by_cases hlt : (Repository.GetUserBalance db u).2.Current < a
    · simp only [if_pos hlt]
      exact h1
    · simp only [if_neg hlt]
      exact WithdrawnOk_Repository_CreateWithdrawal _ _ _ _ _ ha h1
  · have hl' : isValidLuhn n = false := by simpa using hl
    rw [hl']
    exact h

theorem WithdrawnOk_run (db : Ledger) (c : Call) (hc : c.amountPositive) (h : db.WithdrawnOk) :
    (Call.run db c).WithdrawnOk := by
  cases c with
  | CreateOrder u n now =>
    unfold Ledger.WithdrawnOk
    show (∀ r ∈ (OrderService.CreateOrder db u n now).1.user_balances, _)
      ∧ ∀ w ∈ (OrderService.CreateOrder db u n now).1.withdrawals, _
    rw [(OrderService_CreateOrder_balances db u n now).1,
      (OrderService_CreateOrder_balances db u n now).2]
    exact h
  | GetBalance u => exact WithdrawnOk_GetUserBalance db u h
  | CreateWithdrawal u n a now =>
    exact WithdrawnOk_BalanceService_CreateWithdrawal db u n a now hc h
  | accrualCheck authority =>
    exact foldl_body_invariant Ledger.WithdrawnOk authority WithdrawnOk_body _ db h
  | accrualCheckOrder reply order => exact WithdrawnOk_body reply db order h

theorem WithdrawnOk_runCalls (calls : List Call) (db : Ledger)
    (hc : ∀ c ∈ calls, c.amountPositive) (h : db.WithdrawnOk) :
    (runCalls db calls).WithdrawnOk := by
  induction calls generalizing db with
  | nil => exact h
  | cons c cs ih =>
    exact ih _ (fun c' hc' => hc c' (List.mem_cons_of_mem _ hc'))
      (WithdrawnOk_run db c (hc c (List.mem_cons_self _ _)) h)

/-! ## A pass of the loop body that credits -/

theorem available_creditBalance (orders : List OrderRow) (rows : List BalanceRow)
    (withdrawals : List WithdrawalRow) (u : Int) (a : ℚ) :
    Ledger.available ⟨orders, creditBalance rows u a, withdrawals⟩ u
      = match selectBalance rows u with
        | some b => b.current_balance + a
        | none => 0 := by
  unfold Ledger.available
  simp only [selectBalance_creditBalance]
  cases h : selectBalance rows u with
  | none => rfl
  | some b => simp [(selectBalance_some h).1]

theorem UpdateUserBalance_of_record (db : Ledger) (u : Int) (a : ℚ) (b : BalanceRow)
    (h : selectBalance db.user_balances u = some b) :
    Repository.UpdateUserBalance db u a
      = (⟨db.orders, creditBalance db.user_balances u a, db.withdrawals⟩, none) := by
  unfold Repository.UpdateUserBalance
  simp [any_eq_isSome_selectBalance, h]

theorem GetUserBalance_of_record (db : Ledger) (u : Int) (b : BalanceRow)
    (h : selectBalance db.user_balances u = some b) :
    (Repository.GetUserBalance db u).1 = db := by
  rw [GetUserBalance_eq]
  simp only [h]

theorem CheckOrderExists_of_order (db : Ledger) (n : String) (o : OrderRow)
    (h : selectOrder db.orders n = some o) : Repository.CheckOrderExists db n = o.user_id := by
  unfold Repository.CheckOrderExists
  rw [h]

/-- One pass of the loop body for a stored order whose query is answered `PROCESSED` with an
accrual above 0: the owner's available balance grows by twice the accrual when the owner has
a balance record and by the accrual when the owner has none; the balance records of the
other users, the withdrawals and the other orders are as before. -/
theorem startAccrualCheck_body_processed (reply : AuthorityReply) (db : Ledger) (order : Order)
    (o : OrderRow) (accrual : ℚ)
    (horder : selectOrder db.orders order.Number = some o)
    (hreply : OrderService.checkAccrualStatus reply order.Number = .ok ("PROCESSED", accrual))
    (haccrual : accrual > 0) :
    (OrderService.startAccrualCheck.body reply db order).available o.user_id
        = db.available o.user_id
          + (if (selectBalance db.user_balances o.user_id).isSome then 2 * accrual else accrual)
      ∧ (∀ other : Int, other ≠ o.user_id →
          (OrderService.startAccrualCheck.body reply db order).user_balances.filter
              (fun b => b.user_id == other)
            = db.user_balances.filter (fun b => b.user_id == other))
      ∧ (OrderService.startAccrualCheck.body reply db order).withdrawals = db.withdrawals
      ∧ (OrderService.startAccrualCheck.body reply db order).orders
        = updateOrder db.orders order.Number "PROCESSED" accrual := by
  have hc : ("PROCESSED" : String) = "PROCESSED" ∧ accrual > 0 := ⟨rfl, haccrual⟩
  have hU : Repository.UpdateOrderStatus db order.Number "PROCESSED" accrual
      = (⟨updateOrder db.orders order.Number "PROCESSED" accrual,
          creditBalance db.user_balances o.user_id accrual, db.withdrawals⟩, none) := by
    rw [UpdateOrderStatus_eq, if_pos hc, horder]
  rw [body_eq, hreply]
  simp only [true_and, haccrual, if_true]
  rw [hU, CheckOrderExists_of_order db _ o horder]
  simp only []
  have hsel := GetUserBalance_select_self
    ⟨updateOrder db.orders order.Number "PROCESSED" accrual,
      creditBalance db.user_balances o.user_id accrual, db.withdrawals⟩ o.user_id
  rw [UpdateUserBalance_of_record _ _ _ _ hsel]
  have hsel2 : selectBalance (creditBalance (Repository.GetUserBalance
      ⟨updateOrder db.orders order.Number "PROCESSED" accrual,
        creditBalance db.user_balances o.user_id accrual, db.withdrawals⟩
      o.user_id).1.user_balances o.user_id accrual) o.user_id = _ :=
    selectBalance_creditBalance _ _ _ _
  rw [hsel] at hsel2
  rw [GetUserBalance_of_record _ _ _ hsel2]
  refine ⟨?_, ?_, ?_, ?_⟩
  · rw [available_creditBalance, hsel, available_creditBalance]
    unfold Ledger.available
    cases selectBalance db.user_balances o.user_id with
    | none => simp
    | some b => simp; ring
  · intro other hother
    show List.filter _ (creditBalance _ _ _) = _
    rw [filter_creditBalance_other _ _ _ _ hother, GetUserBalance_filter_other _ _ _ hother]
    exact filter_creditBalance_other _ _ _ _ hother
  · show (Repository.GetUserBalance _ _).1.withdrawals = _
    rw [GetUserBalance_withdrawals]
  · show (Repository.GetUserBalance _ _).1.orders = _
    rw [GetUserBalance_orders]

/-! ## `isValidLuhn`: strings it rejects -/

theorem isValidLuhn_loop_nondigit (bs : List UInt8)
    (h : ∃ b ∈ bs, ¬ (48 ≤ b.toNat ∧ b.toNat ≤ 57)) :
    ∀ (sum : Nat) (alternate : Bool), isValidLuhn.loop bs sum alternate = false := by
  induction bs with
  | nil =>
    obtain ⟨b, hb, _⟩ := h
    cases hb
  | cons x rest ih =>
    intro sum alternate
    by_cases hx : 48 ≤ x.toNat ∧ x.toNat ≤ 57
    · have hrest : ∃ b ∈ rest, ¬ (48 ≤ b.toNat ∧ b.toNat ≤ 57) := by
        obtain ⟨b, hb, hnd⟩ := h
        rcases List.mem_cons.mp hb with hbx | hbr
        · exact absurd (hbx ▸ hx) hnd
        · exact ⟨b, hbr, hnd⟩
      have hatoi : atoiByte x = some (x.toNat - 48) := by
        unfold atoiByte
        rw [if_pos hx]
      rw [isValidLuhn.loop, hatoi]
      exact ih hrest _ _
    · have hatoi : atoiByte x = none := by
        unfold atoiByte
        rw [if_neg hx]
      rw [isValidLuhn.loop, hatoi]

theorem isValidLuhn_eq_of_digits (s : String)
    (hdigits : ∀ b ∈ s.toUTF8.data.toList, 48 ≤ b.toNat ∧ b.toNat ≤ 57) :
    isValidLuhn s
      = (luhnSumSpec (s.toUTF8.data.toList.reverse.map fun b => b.toNat - 48) % 10 == 0) := by
  unfold isValidLuhn
  rw [(isValidLuhn_loop_spec _ (fun b hb => hdigits b (List.mem_reverse.mp hb))).1 0]
  simp

theorem luhnSumSpec_append_digit (ys : List Nat) (xs : List Nat) :
    (∀ d, luhnSumSpec (xs ++ d :: ys)
        = luhnSumSpec (xs ++ 0 :: ys)
          + (if xs.length % 2 = 0 then d else (if 2 * d > 9 then 2 * d - 9 else 2 * d)))
      ∧ (∀ a d, luhnSumSpec (a :: xs ++ d :: ys)
        = luhnSumSpec (a :: xs ++ 0 :: ys)
          + (if xs.length % 2 = 0 then (if 2 * d > 9 then 2 * d - 9 else 2 * d) else d)) := by
  induction xs with
  | nil =>
    constructor
    · intro d
      simp only [List.nil_append, List.length_nil, Nat.zero_mod, if_true]
      rw [luhnSumSpec_cons, Nat.add_comm]
    · intro a d
      simp only [List.cons_append, List.nil_append, List.length_nil, Nat.zero_mod, if_true,
        luhnSumSpec, Nat.mul_zero, gt_iff_lt, Nat.not_lt_zero, if_false, Nat.add_zero]
      omega
  | cons x xs ih =>
    constructor
    · intro d
      have h := ih.2 x d
      simp only [List.cons_append] at h ⊢
      rw [h]
      have hlen : (x :: xs).length % 2 = 0 ↔ ¬ xs.length % 2 = 0 := by
        simp only [List.length_cons]
        omega
      by_cases hp : xs.length % 2 = 0
      · rw [if_pos hp, if_neg (fun h' => (hlen.mp h') hp)]
      · rw [if_neg hp, if_pos (hlen.mpr hp)]
    · intro a d
      have h := ih.1 d
      simp only [List.cons_append, luhnSumSpec, List.append_eq]
      rw [h]
      have hlen : (x :: xs).length % 2 = 0 ↔ ¬ xs.length % 2 = 0 := by
        simp only [List.length_cons]
        omega
      by_cases hp : xs.length % 2 = 0
      · rw [if_pos hp, if_neg (fun h' => (hlen.mp h') hp)]
        omega
      · rw [if_neg hp, if_pos (hlen.mpr hp)]
        omega

theorem luhnSumSpec_append_two (ys xs : List Nat) (p q : Nat) :
    luhnSumSpec (xs ++ p :: q :: ys)
      = luhnSumSpec (xs ++ 0 :: 0 :: ys)
        + (if xs.length % 2 = 0 then p else (if 2 * p > 9 then 2 * p - 9 else 2 * p))
        + (if xs.length % 2 = 0 then (if 2 * q > 9 then 2 * q - 9 else 2 * q) else q) := by
  rw [(luhnSumSpec_append_digit (q :: ys) xs).1 p]
  have h := (luhnSumSpec_append_digit ys (xs ++ [0])).1 q
  simp only [List.append_assoc, List.singleton_append, List.length_append, List.length_singleton]
    at h
  rw [h]
  by_cases hp : xs.length % 2 = 0
  · have hp' : ¬ (xs.length + 1) % 2 = 0 := by omega
    rw [if_pos hp, if_pos hp, if_neg hp']
    omega
  · have hp' : (xs.length + 1) % 2 = 0 := by omega
    rw [if_neg hp, if_neg hp, if_pos hp']
    omega

/-! ## A pass of the loop body that does not credit -/

theorem checkAccrualStatus_204 (body : Option accrualResponse) (orderNumber : String) :
    OrderService.checkAccrualStatus (.response 204 body) orderNumber = .ok ("NEW", 0) := by
  unfold OrderService.checkAccrualStatus
  simp

theorem body_of_ok_no_credit (reply : AuthorityReply) (db : Ledger) (order : Order)
    (status : String) (accrual : ℚ)
    (hreply : OrderService.checkAccrualStatus reply order.Number = .ok (status, accrual))
    (hc : ¬ (status = "PROCESSED" ∧ accrual > 0)) :
    OrderService.startAccrualCheck.body reply db order
      = ⟨updateOrder db.orders order.Number status accrual, db.user_balances, db.withdrawals⟩ := by
  rw [body_eq, hreply]
  simp only []
  rw [if_neg hc, UpdateOrderStatus_eq, if_neg hc]

theorem mem_updateOrder_of_mem (rows : List OrderRow) (n status : String) (a : ℚ)
    (r : OrderRow) (hr : r ∈ rows) (hn : r.number = n) :
    ({ r with status := status, accrual := a } : OrderRow) ∈ updateOrder rows n status a := by
  unfold updateOrder
  refine List.mem_map.mpr ⟨r, hr, ?_⟩
  rw [if_pos hn]

theorem mem_GetProcessingOrders (db : Ledger) (r : OrderRow) (hr : r ∈ db.orders)
    (hs : r.status = "NEW" ∨ r.status = "PROCESSING") :
    (⟨r.number, r.status, float32 r.accrual, r.uploaded_at⟩ : Order)
      ∈ Repository.GetProcessingOrders db := by
  unfold Repository.GetProcessingOrders
  refine List.mem_map.mpr ⟨r, ?_, rfl⟩
  rw [List.mem_insertionSort, List.mem_filter]
  refine ⟨hr, ?_⟩
  rcases hs with h | h <;> simp [h]

/-- After a pass of the loop body for a stored order whose query is answered with HTTP 204, or
with HTTP 200 and status `PROCESSING`, the order is still among the unresolved orders. -/
theorem body_keeps_unresolved (db : Ledger) (order : Order) (reply : AuthorityReply)
    (r : OrderRow) (hr : r ∈ db.orders) (hn : r.number = order.Number)
    (hreply : (∃ body, reply = .response 204 body)
      ∨ ∃ accrual, reply = .response 200 (some ⟨order.Number, "PROCESSING", accrual⟩)) :
    ∃ o ∈ Repository.GetProcessingOrders (OrderService.startAccrualCheck.body reply db order),
      o.Number = order.Number := by
  have key : ∀ (status : String) (accrual : ℚ),
      OrderService.checkAccrualStatus reply order.Number = .ok (status, accrual) →
      (status = "NEW" ∨ status = "PROCESSING") →
      ∃ o ∈ Repository.GetProcessingOrders (OrderService.startAccrualCheck.body reply db order),
        o.Number = order.Number := by
    intro status accrual hok hst
    have hc : ¬ (status = "PROCESSED" ∧ accrual > 0) := by
      rintro ⟨h, _⟩
      rcases hst with h' | h' <;> rw [h'] at h <;> exact absurd h (by decide)
    rw [body_of_ok_no_credit reply db order status accrual hok hc]
    refine ⟨_, mem_GetProcessingOrders _ _
      (mem_updateOrder_of_mem db.orders order.Number status accrual r hr hn) hst, hn⟩
  rcases hreply with ⟨body, rfl⟩ | ⟨accrual, rfl⟩
  · exact key "NEW" 0 (checkAccrualStatus_204 body order.Number) (Or.inl rfl)
  · refine key "PROCESSING" accrual ?_ (Or.inr rfl)
    unfold OrderService.checkAccrualStatus
    simp

/-! ## Two concurrent withdrawals -/

/-- The method is its check followed by the repository transaction. -/
theorem BalanceService_CreateWithdrawal_eq_check (db : Ledger) (userID : Int)
    (orderNumber : String) (amount : ℚ) (now : Nat) :
    BalanceService.CreateWithdrawal db userID orderNumber amount now
      = match BalanceService.CreateWithdrawal.check db userID orderNumber amount with
        | (db, some err) => (db, some err)
        | (db, none) => Repository.CreateWithdrawal db userID orderNumber amount now := by
  unfold BalanceService.CreateWithdrawal BalanceService.CreateWithdrawal.check
  by_cases hl : isValidLuhn orderNumber = true
  · simp only [hl, Bool.not_true, Bool.false_eq_true, if_false]
    by_cases hlt : (Repository.GetUserBalance db userID).2.Current < amount
    · simp only [if_pos hlt]
    · simp only [if_neg hlt]
  · have hl' : isValidLuhn orderNumber = false := by simpa using hl
    simp only [hl', Bool.not_false, if_true]

/-- A call that takes its two steps with no other call in between is the method. -/
theorem WithdrawalCall_step_step (c : WithdrawalCall) (db : Ledger) :
    c.step (c.step db .notStarted).1 (c.step db .notStarted).2
      = ((BalanceService.CreateWithdrawal db c.userID c.orderNumber c.amount c.now).1,
          .returned (BalanceService.CreateWithdrawal db c.userID c.orderNumber c.amount c.now).2) := by
  rw [BalanceService_CreateWithdrawal_eq_check]
  unfold WithdrawalCall.step
  rcases hc : BalanceService.CreateWithdrawal.check db c.userID c.orderNumber c.amount
    with ⟨db1, _ | err⟩
  · rfl
  · rfl

/-- C1 (the code at a failing input): user 1 owns the unresolved order `12345678903` and has
a balance record with available 0; the accrual system answers `PROCESSED` with accrual 10.
One pass of the loop body leaves available 20, twice the accrual: `UpdateOrderStatus` credits
the record and the loop credits it again through `UpdateUserBalance`.  For the same order and
answer with no balance record stored, the pass leaves available 10.  The first state is
reached from the empty ledger: user 1 uploads the order and reads the balance, and the next
tick of the loop leaves available 20. -/
theorem startAccrualCheck_body_credits_twice :
    OrderService.startAccrualCheck.body
        (.response 200 (some ⟨"12345678903", "PROCESSED", 10⟩))
        ⟨[⟨1, "12345678903", "NEW", 0, 0⟩], [⟨1, 0, 0⟩], []⟩ ⟨"12345678903", "NEW", 0, 0⟩
      = ⟨[⟨1, "12345678903", "PROCESSED", 10, 0⟩], [⟨1, 20, 0⟩], []⟩
    ∧ OrderService.startAccrualCheck.body
        (.response 200 (some ⟨"12345678903", "PROCESSED", 10⟩))
        ⟨[⟨1, "12345678903", "NEW", 0, 0⟩], [], []⟩ ⟨"12345678903", "NEW", 0, 0⟩
      = ⟨[⟨1, "12345678903", "PROCESSED", 10, 0⟩], [⟨1, 10, 0⟩], []⟩
    ∧ runCalls Ledger.empty
        [.CreateOrder 1 "12345678903" 0, .GetBalance 1,
         .accrualCheck (fun _ => .response 200 (some ⟨"12345678903", "PROCESSED", 10⟩))]
      = ⟨[⟨1, "12345678903", "PROCESSED", 10, 0⟩], [⟨1, 20, 0⟩], []⟩ := by
  decide!

/-- C2 (the code at a failing input): user 1 owns order `12345678903` and has no balance
record.  `UpdateOrderStatus` with `PROCESSED` and accrual 10 sets the order's status and
accrual and credits nothing: the balance table stays empty and the available balance that
`GetUserBalance` reports afterwards is 0, not 10. -/
theorem UpdateOrderStatus_credit_lost_without_record :
    Repository.UpdateOrderStatus ⟨[⟨1, "12345678903", "NEW", 0, 0⟩], [], []⟩
        "12345678903" "PROCESSED" 10
      = (⟨[⟨1, "12345678903", "PROCESSED", 10, 0⟩], [], []⟩, none)
    ∧ (Repository.GetUserBalance
        (Repository.UpdateOrderStatus ⟨[⟨1, "12345678903", "NEW", 0, 0⟩], [], []⟩
          "12345678903" "PROCESSED" 10).1 1).2 = ⟨0, 0⟩ := by
  decide!

/-- C3 (counterexample): with order `12345678903` owned by user 1, who has a balance record,
the ledger after two calls of `UpdateOrderStatus` with `PROCESSED` and accrual 10 differs
from the ledger after one call: available is 20 after the second call and 10 after the
first. -/
theorem UpdateOrderStatus_twice_credits_twice :
    (Repository.UpdateOrderStatus
        (Repository.UpdateOrderStatus ⟨[⟨1, "12345678903", "NEW", 0, 0⟩], [⟨1, 0, 0⟩], []⟩
          "12345678903" "PROCESSED" 10).1
        "12345678903" "PROCESSED" 10).1
      ≠ (Repository.UpdateOrderStatus ⟨[⟨1, "12345678903", "NEW", 0, 0⟩], [⟨1, 0, 0⟩], []⟩
          "12345678903" "PROCESSED" 10).1
    ∧ (Repository.UpdateOrderStatus
        (Repository.UpdateOrderStatus ⟨[⟨1, "12345678903", "NEW", 0, 0⟩], [⟨1, 0, 0⟩], []⟩
          "12345678903" "PROCESSED" 10).1
        "12345678903" "PROCESSED" 10).1.available 1 = 20
    ∧ (Repository.UpdateOrderStatus ⟨[⟨1, "12345678903", "NEW", 0, 0⟩], [⟨1, 0, 0⟩], []⟩
        "12345678903" "PROCESSED" 10).1.available 1 = 10 := by
  decide!

/-- C3 (amended): calling `UpdateOrderStatus` twice with the same arguments leaves the
orders and the withdrawals as they are after the first call; when the result credits nothing
(status other than `PROCESSED`, or accrual not above 0) the second call leaves the whole
ledger as it is after the first; for `PROCESSED` with accrual above 0 the second call credits
the balance records of the order's owner by the accrual once more. -/
theorem UpdateOrderStatus_twice (db : Ledger) (number status : String) (accrual : ℚ) :
    ((Repository.UpdateOrderStatus (Repository.UpdateOrderStatus db number status accrual).1
          number status accrual).1.orders
        = (Repository.UpdateOrderStatus db number status accrual).1.orders)
      ∧ ((Repository.UpdateOrderStatus (Repository.UpdateOrderStatus db number status accrual).1
          number status accrual).1.withdrawals
        = (Repository.UpdateOrderStatus db number status accrual).1.withdrawals)
      ∧ (¬ (status = "PROCESSED" ∧ accrual > 0) →
          (Repository.UpdateOrderStatus (Repository.UpdateOrderStatus db number status accrual).1
            number status accrual).1
          = (Repository.UpdateOrderStatus db number status accrual).1)
      ∧ (status = "PROCESSED" ∧ accrual > 0 →
          ∀ o : OrderRow, selectOrder db.orders number = some o →
            (Repository.UpdateOrderStatus (Repository.UpdateOrderStatus db number status accrual).1
              number status accrual).1.user_balances
            = creditBalance (Repository.UpdateOrderStatus db number status accrual).1.user_balances
                o.user_id accrual) := by
  simp only [UpdateOrderStatus_eq, updateOrder_updateOrder, selectOrder_updateOrder]
  refine ⟨trivial, trivial, ?_, ?_⟩
  · intro hc
    simp only [if_neg hc]
  · intro hc o ho
    simp only [if_pos hc, ho, Option.map_some']

/-- C3 (witness): the amended statement at order `12345678903` of user 1, result `INVALID`
with accrual 0: the second call changes nothing. -/
theorem UpdateOrderStatus_twice_witness :
    (Repository.UpdateOrderStatus
        (Repository.UpdateOrderStatus ⟨[⟨1, "12345678903", "NEW", 0, 0⟩], [⟨1, 7, 0⟩], []⟩
          "12345678903" "INVALID" 0).1
        "12345678903" "INVALID" 0).1
      = (Repository.UpdateOrderStatus ⟨[⟨1, "12345678903", "NEW", 0, 0⟩], [⟨1, 7, 0⟩], []⟩
          "12345678903" "INVALID" 0).1 :=
  (UpdateOrderStatus_twice ⟨[⟨1, "12345678903", "NEW", 0, 0⟩], [⟨1, 7, 0⟩], []⟩
    "12345678903" "INVALID" 0).2.2.1 (by decide!)

/-- C7 (counterexample): from the empty ledger, one `BalanceService.CreateWithdrawal` call
of user 1 with the request amount -5 succeeds and leaves the withdrawn total -5 and a
withdrawal record of amount -5; with the request amount 0 it leaves a withdrawal record of
amount 0. -/
theorem CreateWithdrawal_negative_amount_accepted :
    runCalls Ledger.empty [.CreateWithdrawal 1 "2377225624" (-5) 0]
        = ⟨[], [⟨1, 5, -5⟩], [⟨1, "2377225624", -5, 0⟩]⟩
      ∧ (runCalls Ledger.empty [.CreateWithdrawal 1 "2377225624" (-5) 0]).withdrawn 1 < 0
      ∧ runCalls Ledger.empty [.CreateWithdrawal 1 "2377225624" 0 0]
        = ⟨[], [⟨1, 0, 0⟩], [⟨1, "2377225624", 0, 0⟩]⟩ := by
  decide!

/-- C7 (amended): in every ledger state reached from the empty ledger by a sequence of
calls in which every `BalanceService.CreateWithdrawal` request amount is above 0, every
stored withdrawn total is at least 0, the withdrawn total of every user (0 for a user
without a balance record) is at least 0, and every stored withdrawal record has an amount
above 0. -/
theorem withdrawn_nonneg_of_positive_amounts (calls : List Call) (hpos : ∀ c ∈ calls, c.amountPositive) :
    (∀ r ∈ (runCalls Ledger.empty calls).user_balances, 0 ≤ r.withdrawn_balance)
      ∧ (∀ userID : Int, 0 ≤ (runCalls Ledger.empty calls).withdrawn userID)
      ∧ ∀ w ∈ (runCalls Ledger.empty calls).withdrawals, 0 < w.sum := by
  have h := WithdrawnOk_runCalls calls Ledger.empty hpos
    ⟨fun _ hr => absurd hr (List.not_mem_nil _), fun _ hw => absurd hw (List.not_mem_nil _)⟩
  refine ⟨h.1, fun userID => ?_, h.2⟩
  unfold Ledger.withdrawn
  cases hsel : selectBalance (runCalls Ledger.empty calls).user_balances userID with
  | none => exact le_rfl
  | some b => exact h.1 b (selectBalance_some hsel).2

/-- C7 (witness): order `12345678903` of user 1 is uploaded, a tick resolves it `PROCESSED`
with accrual 10, and user 1 withdraws 5; the run ends with balance (5, 5) and one withdrawal
record of amount 5. -/
theorem withdrawn_nonneg_of_positive_amounts_witness :
    runCalls Ledger.empty
        [.CreateOrder 1 "12345678903" 0,
         .accrualCheck (fun _ => .response 200 (some ⟨"12345678903", "PROCESSED", 10⟩)),
         .CreateWithdrawal 1 "2377225624" 5 1]
      = ⟨[⟨1, "12345678903", "PROCESSED", 10, 0⟩], [⟨1, 5, 5⟩], [⟨1, "2377225624", 5, 1⟩]⟩
    ∧ ∀ w ∈ (runCalls Ledger.empty
        [.CreateOrder 1 "12345678903" 0,
         .accrualCheck (fun _ => .response 200 (some ⟨"12345678903", "PROCESSED", 10⟩)),
         .CreateWithdrawal 1 "2377225624" 5 1]).withdrawals, 0 < w.sum :=
  ⟨by decide!,
    (withdrawn_nonneg_of_positive_amounts _ (by simp [Call.amountPositive])).2.2⟩

/-- C8 (counterexample): user 1 submits the Luhn-valid number `12345678903` twice, starting
from the empty ledger; the first `OrderService.CreateOrder` call returns no error, the second
returns the error `ErrOrderExists`. -/
theorem CreateOrder_resubmission_returns_ErrOrderExists :
    isValidLuhn "12345678903" = true
      ∧ (OrderService.CreateOrder Ledger.empty 1 "12345678903" 0).2 = none
      ∧ (OrderService.CreateOrder (OrderService.CreateOrder Ledger.empty 1 "12345678903" 0).1
          1 "12345678903" 1).2 = some GoError.ErrOrderExists := by
  decide!

/-- C8 (amended): for a Luhn-valid order number not yet in the ledger, the first
`OrderService.CreateOrder` call of a user returns no error, the second call by the same user
returns the error `ErrOrderExists` and leaves the ledger as it is after the first call, with
exactly one order of that number, owned by the user, with status `NEW`; the handler
`UploadOrder` answers the first submission with 202 and the second with 200, not with an
error status. -/
theorem CreateOrder_resubmission (db : Ledger) (u : Int) (n : String) (now now' : Nat)
    (hluhn : isValidLuhn n = true) (hnew : ∀ o ∈ db.orders, o.number ≠ n) :
    (OrderService.CreateOrder db u n now).2 = none
      ∧ (OrderService.CreateOrder (OrderService.CreateOrder db u n now).1 u n now').2
        = some GoError.ErrOrderExists
      ∧ (OrderService.CreateOrder (OrderService.CreateOrder db u n now).1 u n now').1
        = (OrderService.CreateOrder db u n now).1
      ∧ (OrderService.CreateOrder db u n now).1.orders.filter (fun o => o.number == n)
        = [⟨u, n, "NEW", orders_accrual_default, now⟩]
      ∧ (u ≠ 0 → (OrderHandler.UploadOrder db u n now).2 = 202
          ∧ (OrderHandler.UploadOrder (OrderService.CreateOrder db u n now).1 u n now').2 = 200) := by
  have hnone : selectOrder db.orders n = none := selectOrder_eq_none.mpr hnew
  have h1 : OrderService.CreateOrder db u n now
      = ({ db with orders := db.orders ++ [⟨u, n, "NEW", orders_accrual_default, now⟩] }, none) := by
    unfold OrderService.CreateOrder
    rw [Repository_CreateOrder_eq, hnone]
    simp [hluhn]
  have h2 : OrderService.CreateOrder
      { db with orders := db.orders ++ [⟨u, n, "NEW", orders_accrual_default, now⟩] } u n now'
      = ({ db with orders := db.orders ++ [⟨u, n, "NEW", orders_accrual_default, now⟩] },
          some GoError.ErrOrderExists) := by
    unfold OrderService.CreateOrder
    rw [Repository_CreateOrder_eq]
    simp [hluhn, selectOrder_append, hnone, GoError.Error, other_user_text_ne]
  have hfilter : db.orders.filter (fun o => o.number == n) = [] := by
    rw [List.filter_eq_nil_iff]
    intro o ho
    simpa using hnew o ho
  refine ⟨by rw [h1], by rw [h1, h2], by rw [h1, h2], ?_, ?_⟩
  · rw [h1]
    simp [List.filter_append, hfilter, List.filter_cons]
  · intro hu
    unfold OrderHandler.UploadOrder
    rw [h1]
    simp only [if_neg hu, h2]
    exact ⟨trivial, trivial⟩

/-- C8 (witness): user 1 submits `12345678903` twice, starting from the empty ledger. -/
theorem CreateOrder_resubmission_witness :
    (OrderService.CreateOrder (OrderService.CreateOrder Ledger.empty 1 "12345678903" 3).1
        1 "12345678903" 4).1
      = (OrderService.CreateOrder Ledger.empty 1 "12345678903" 3).1
    ∧ (OrderService.CreateOrder Ledger.empty 1 "12345678903" 3).1
      = ⟨[⟨1, "12345678903", "NEW", 0, 3⟩], [], []⟩ :=
  ⟨(CreateOrder_resubmission Ledger.empty 1 "12345678903" 3 4 (by decide)
      (fun _ ho => absurd ho (List.not_mem_nil _))).2.2.1,
    by decide!⟩

/-- C9: for users `u ≠ v` and a Luhn-valid order number stored in the ledger under owner
`u`, `OrderService.CreateOrder` called by `v` returns exactly `ErrOrderExistsForOtherUser`
(the comparison of the repository's error text recognises the conflict for every number) and
the ledger is unchanged. -/
theorem CreateOrder_other_owner (db : Ledger) (u v : Int) (n : String) (now : Nat)
    (huv : u ≠ v) (hluhn : isValidLuhn n = true)
    (hstored : ∃ o ∈ db.orders, o.number = n)
    (howner : ∀ o ∈ db.orders, o.number = n → o.user_id = u) :
    OrderService.CreateOrder db v n now = (db, some GoError.ErrOrderExistsForOtherUser) := by
  unfold OrderService.CreateOrder
  rw [Repository_CreateOrder_eq]
  cases h : selectOrder db.orders n with
  | none =>
    obtain ⟨o, ho, hn⟩ := hstored
    exact absurd hn (selectOrder_eq_none.mp h o ho)
  | some o =>
    have ho := selectOrder_some h
    have hu : o.user_id ≠ v := by rw [howner o ho.2 ho.1]; exact huv
    simp [hluhn, hu, GoError.Error]

/-- C9 (witness): order `12345678903` is stored under user 1 and user 2 submits it. -/
theorem CreateOrder_other_owner_witness :
    OrderService.CreateOrder ⟨[⟨1, "12345678903", "NEW", 0, 3⟩], [], []⟩ 2 "12345678903" 4
      = (⟨[⟨1, "12345678903", "NEW", 0, 3⟩], [], []⟩, some GoError.ErrOrderExistsForOtherUser) :=
  CreateOrder_other_owner ⟨[⟨1, "12345678903", "NEW", 0, 3⟩], [], []⟩ 1 2 "12345678903" 4
    (by decide) (by decide) ⟨_, List.mem_singleton.mpr rfl, rfl⟩
    (fun o ho _ => by rw [List.mem_singleton.mp ho])

/-- C10: for every string of decimal digits (the empty string included), `isValidLuhn` is
true exactly when the reference Luhn sum of its digits, scanned from the rightmost, is
divisible by 10; and on every doubled digit above 9 the adjustment `(n % 10) + 1` of the code
is the subtraction of 9. -/
theorem isValidLuhn_iff_luhnSumSpec (s : String)
    (hdigits : ∀ b ∈ s.toUTF8.data.toList, 48 ≤ b.toNat ∧ b.toNat ≤ 57) :
    (isValidLuhn s = true ↔ luhnSumSpec (digitsFromRight s) % 10 = 0)
      ∧ ∀ d : Nat, d ≤ 9 → 2 * d > 9 → (2 * d) % 10 + 1 = 2 * d - 9 := by
  constructor
  · unfold isValidLuhn digitsFromRight
    rw [(isValidLuhn_loop_spec _ (fun b hb => hdigits b (List.mem_reverse.mp hb))).1 0]
    simp
  · intro d hd h
    omega

/-- C10 (witness): the number `79927398713` is accepted and its reference sum is 70. -/
theorem isValidLuhn_iff_luhnSumSpec_witness :
    (isValidLuhn "79927398713" = true
        ↔ luhnSumSpec (digitsFromRight "79927398713") % 10 = 0)
      ∧ isValidLuhn "79927398713" = true
      ∧ luhnSumSpec (digitsFromRight "79927398713") = 70 :=
  ⟨(isValidLuhn_iff_luhnSumSpec "79927398713" (by decide)).1, by decide, by decide⟩

/-- C11 (the code at the failing input): `isValidLuhn` accepts the empty string, the loop
never runs and the sum 0 is divisible by 10.  `OrderService.CreateOrder` with the empty order
number stores an order whose number is empty, and `BalanceService.CreateWithdrawal` with the
empty order number debits the balance; neither returns `ErrInvalidOrderNumber`. -/
theorem isValidLuhn_accepts_empty_string :
    isValidLuhn "" = true
      ∧ OrderService.CreateOrder Ledger.empty 1 "" 5 = (⟨[⟨1, "", "NEW", 0, 5⟩], [], []⟩, none)
      ∧ BalanceService.CreateWithdrawal ⟨[], [⟨1, 10, 0⟩], []⟩ 1 "" 4 5
        = (⟨[], [⟨1, 6, 4⟩], [⟨1, "", 4, 5⟩]⟩, none) := by
  decide!

/-- C12: a string with at least one byte that is not one of the ASCII digits `'0'`..`'9'`,
at any position, is rejected by `isValidLuhn`. -/
theorem isValidLuhn_rejects_non_digit (s : String)
    (h : ∃ b ∈ s.toUTF8.data.toList, ¬ (48 ≤ b.toNat ∧ b.toNat ≤ 57)) :
    isValidLuhn s = false := by
  unfold isValidLuhn
  apply isValidLuhn_loop_nondigit
  obtain ⟨b, hb, hnd⟩ := h
  exact ⟨b, List.mem_reverse.mpr hb, hnd⟩

/-- C12 (witness): a byte of a two-byte character, a space, a leading `+` and a trailing
newline are each rejected. -/
theorem isValidLuhn_rejects_non_digit_witness :
    isValidLuhn "7992739871é3" = false
      ∧ isValidLuhn "79927398 713" = false
      ∧ isValidLuhn "+79927398713" = false
      ∧ isValidLuhn "79927398713\n" = false :=
  ⟨isValidLuhn_rejects_non_digit "7992739871é3" ⟨0xc3, by decide, by decide⟩,
    isValidLuhn_rejects_non_digit _ ⟨32, by decide, by decide⟩,
    isValidLuhn_rejects_non_digit _ ⟨43, by decide, by decide⟩,
    isValidLuhn_rejects_non_digit _ ⟨10, by decide, by decide⟩⟩

/-- C13: let `s` be a string of digits that `isValidLuhn` accepts, with the digit `b` at some
position (its bytes are `front`, then `b`, then `back`), and let `t` be `s` with that digit
replaced by a different digit `c`.  Then `isValidLuhn` rejects `t`. -/
theorem isValidLuhn_detects_single_digit_change (s t : String) (front back : List UInt8)
    (b c : UInt8)
    (hs : s.toUTF8.data.toList = front ++ b :: back)
    (ht : t.toUTF8.data.toList = front ++ c :: back)
    (hdigits : ∀ x ∈ s.toUTF8.data.toList, 48 ≤ x.toNat ∧ x.toNat ≤ 57)
    (hc : 48 ≤ c.toNat ∧ c.toNat ≤ 57) (hbc : b ≠ c)
    (hvalid : isValidLuhn s = true) :
    isValidLuhn t = false := by
  have hb : 48 ≤ b.toNat ∧ b.toNat ≤ 57 := hdigits b (by rw [hs]; simp)
  have hdigits' : ∀ x ∈ t.toUTF8.data.toList, 48 ≤ x.toNat ∧ x.toNat ≤ 57 := by
    intro x hx
    rw [ht] at hx
    rcases List.mem_append.mp hx with h | h
    · exact hdigits x (by rw [hs]; exact List.mem_append_left _ h)
    · rcases List.mem_cons.mp h with h | h
      · rw [h]; exact hc
      · exact hdigits x (by rw [hs]; exact List.mem_append_right _ (List.mem_cons_of_mem _ h))
  have hne : b.toNat ≠ c.toNat := fun h => hbc (UInt8.ext h)
  rw [isValidLuhn_eq_of_digits s hdigits, hs] at hvalid
  rw [isValidLuhn_eq_of_digits t hdigits', ht]
  simp only [List.reverse_append, List.reverse_cons, List.map_append, List.map_cons,
    List.map_nil, List.append_assoc, List.singleton_append] at hvalid ⊢
  rw [(luhnSumSpec_append_digit _ _).1] at hvalid ⊢
  simp only [beq_iff_eq] at hvalid
  simp only [beq_eq_false_iff_ne, ne_eq]
  intro h
  split_ifs at hvalid h <;> omega

/-- C13 (witness): `79927398713` is accepted; with its last digit replaced by `0` it is
rejected. -/
theorem isValidLuhn_detects_single_digit_change_witness :
    isValidLuhn "79927398713" = true ∧ isValidLuhn "79927398710" = false :=
  ⟨by decide,
    isValidLuhn_detects_single_digit_change "79927398713" "79927398710"
      "7992739871".toUTF8.data.toList [] 51 48
      (by decide) (by decide) (by decide) (by decide) (by decide) (by decide)⟩

/-- C14: let `s` be a string of digits that `isValidLuhn` accepts, with two different digits
`a`, `b` at adjacent positions (its bytes are `front`, then `a`, `b`, then `back`) that are
not the pair `0`, `9` in either order, and let `t` be `s` with the two swapped.  Then
`isValidLuhn` rejects `t`. -/
theorem isValidLuhn_detects_adjacent_transposition (s t : String) (front back : List UInt8)
    (a b : UInt8)
    (hs : s.toUTF8.data.toList = front ++ a :: b :: back)
    (ht : t.toUTF8.data.toList = front ++ b :: a :: back)
    (hdigits : ∀ x ∈ s.toUTF8.data.toList, 48 ≤ x.toNat ∧ x.toNat ≤ 57)
    (hab : a ≠ b)
    (h09 : ¬ ((a.toNat = 48 ∧ b.toNat = 57) ∨ (a.toNat = 57 ∧ b.toNat = 48)))
    (hvalid : isValidLuhn s = true) :
    isValidLuhn t = false := by
  have ha : 48 ≤ a.toNat ∧ a.toNat ≤ 57 := hdigits a (by rw [hs]; simp)
  have hb : 48 ≤ b.toNat ∧ b.toNat ≤ 57 := hdigits b (by rw [hs]; simp)
  have hdigits' : ∀ x ∈ t.toUTF8.data.toList, 48 ≤ x.toNat ∧ x.toNat ≤ 57 := by
    intro x hx
    apply hdigits x
    rw [ht] at hx
    rw [hs]
    simp only [List.mem_append, List.mem_cons] at hx ⊢
    tauto
  have hne : a.toNat ≠ b.toNat := fun h => hab (UInt8.ext h)
  rw [isValidLuhn_eq_of_digits s hdigits, hs] at hvalid
  rw [isValidLuhn_eq_of_digits t hdigits', ht]
  simp only [List.reverse_append, List.reverse_cons, List.map_append, List.map_cons,
    List.map_nil, List.append_assoc, List.singleton_append, List.cons_append,
    List.nil_append] at hvalid ⊢
  rw [luhnSumSpec_append_two] at hvalid ⊢
  simp only [beq_iff_eq] at hvalid
  simp only [beq_eq_false_iff_ne, ne_eq]
  intro h
  split_ifs at hvalid h <;> omega

/-- C14 (witness): `79927398713` is accepted; with its last two digits swapped it is
rejected. -/
theorem isValidLuhn_detects_adjacent_transposition_witness :
    isValidLuhn "79927398713" = true ∧ isValidLuhn "79927398731" = false :=
  ⟨by decide,
    isValidLuhn_detects_adjacent_transposition "79927398713" "79927398731"
      "799273987".toUTF8.data.toList [] 49 51
      (by decide) (by decide) (by decide) (by decide) (by decide) (by decide)⟩

/-- C15 (the code at a failing input): user 1 reads the balance, which is (0, 0) and is now
stored as a balance record, and uploads order `12345678903`; one tick in which the accrual
system answers `PROCESSED` with accrual 500.5 leaves the balance (1001, 0), not (500.5, 0).
The withdrawal of 200.5 then leaves (800.5, 200.5) and the further withdrawal of 400 succeeds.
For a user without a balance record the same steps give (500.5, 0), then (300, 200.5), and the
withdrawal of 400 returns `ErrInsufficientFunds` and changes nothing. -/
theorem end_to_end_credits_balance_record_twice :
    runCalls Ledger.empty
        [.GetBalance 1, .CreateOrder 1 "12345678903" 0,
         .accrualCheck (fun _ => .response 200 (some ⟨"12345678903", "PROCESSED", 500.5⟩))]
      = ⟨[⟨1, "12345678903", "PROCESSED", 500.5, 0⟩], [⟨1, 1001, 0⟩], []⟩
    ∧ BalanceService.CreateWithdrawal
        ⟨[⟨1, "12345678903", "PROCESSED", 500.5, 0⟩], [⟨1, 1001, 0⟩], []⟩ 1 "2377225624" 200.5 1
      = (⟨[⟨1, "12345678903", "PROCESSED", 500.5, 0⟩], [⟨1, 800.5, 200.5⟩],
          [⟨1, "2377225624", 200.5, 1⟩]⟩, none)
    ∧ (BalanceService.CreateWithdrawal
        ⟨[⟨1, "12345678903", "PROCESSED", 500.5, 0⟩], [⟨1, 800.5, 200.5⟩],
          [⟨1, "2377225624", 200.5, 1⟩]⟩ 1 "2377225624" 400 2).2 = none
    ∧ runCalls Ledger.empty
        [.CreateOrder 1 "12345678903" 0,
         .accrualCheck (fun _ => .response 200 (some ⟨"12345678903", "PROCESSED", 500.5⟩))]
      = ⟨[⟨1, "12345678903", "PROCESSED", 500.5, 0⟩], [⟨1, 500.5, 0⟩], []⟩
    ∧ BalanceService.CreateWithdrawal
        ⟨[⟨1, "12345678903", "PROCESSED", 500.5, 0⟩], [⟨1, 500.5, 0⟩], []⟩ 1 "2377225624" 200.5 1
      = (⟨[⟨1, "12345678903", "PROCESSED", 500.5, 0⟩], [⟨1, 300, 200.5⟩],
          [⟨1, "2377225624", 200.5, 1⟩]⟩, none)
    ∧ BalanceService.CreateWithdrawal
        ⟨[⟨1, "12345678903", "PROCESSED", 500.5, 0⟩], [⟨1, 300, 200.5⟩],
          [⟨1, "2377225624", 200.5, 1⟩]⟩ 1 "2377225624" 400 2
      = (⟨[⟨1, "12345678903", "PROCESSED", 500.5, 0⟩], [⟨1, 300, 200.5⟩],
          [⟨1, "2377225624", 200.5, 1⟩]⟩, some GoError.ErrInsufficientFunds) := by
  decide!

/-- C16 (the code at a failing input): order `12345678903` of user 1 is unresolved, with
status `NEW`; the accrual system answers HTTP 200 with status `REGISTERED`.  The loop body
writes `REGISTERED` as the order's status and `GetProcessingOrders` no longer returns the
order; a later tick in which the accrual system answers `PROCESSED` with accrual 10 never
reaches it. -/
theorem REGISTERED_answer_drops_order :
    OrderService.startAccrualCheck.body
        (.response 200 (some ⟨"12345678903", "REGISTERED", 0⟩))
        ⟨[⟨1, "12345678903", "NEW", 0, 0⟩], [], []⟩ ⟨"12345678903", "NEW", 0, 0⟩
      = ⟨[⟨1, "12345678903", "REGISTERED", 0, 0⟩], [], []⟩
    ∧ Repository.GetProcessingOrders ⟨[⟨1, "12345678903", "NEW", 0, 0⟩], [], []⟩
      = [⟨"12345678903", "NEW", 0, 0⟩]
    ∧ Repository.GetProcessingOrders ⟨[⟨1, "12345678903", "REGISTERED", 0, 0⟩], [], []⟩ = []
    ∧ runCalls Ledger.empty
        [.CreateOrder 1 "12345678903" 0,
         .accrualCheck (fun _ => .response 200 (some ⟨"12345678903", "REGISTERED", 0⟩)),
         .accrualCheck (fun _ => .response 200 (some ⟨"12345678903", "PROCESSED", 10⟩))]
      = ⟨[⟨1, "12345678903", "REGISTERED", 0, 0⟩], [], []⟩ := by
  decide!

/-- C17: `Repository.GetProcessingOrders` returns exactly the orders whose status is `NEW` or
`PROCESSING` (each as often as it is stored, its accrual scanned into `float32`), in
non-decreasing order of upload time, and
every order it returns has status `NEW` or `PROCESSING`, so none has status `PROCESSED` or
`INVALID`. -/
theorem GetProcessingOrders_unresolved_sorted (db : Ledger) :
    (Repository.GetProcessingOrders db).Perm
        ((db.orders.filter fun o => o.status == "NEW" || o.status == "PROCESSING").map
          fun o => ⟨o.number, o.status, float32 o.accrual, o.uploaded_at⟩)
      ∧ (Repository.GetProcessingOrders db).Pairwise (fun a b => a.CreatedAt ≤ b.CreatedAt)
      ∧ ∀ o ∈ Repository.GetProcessingOrders db,
          (o.Status = "NEW" ∨ o.Status = "PROCESSING")
            ∧ o.Status ≠ "PROCESSED" ∧ o.Status ≠ "INVALID" := by
  haveI : IsTotal OrderRow (fun a b => a.uploaded_at ≤ b.uploaded_at) :=
    ⟨fun a b => Nat.le_total _ _⟩
  haveI : IsTrans OrderRow (fun a b => a.uploaded_at ≤ b.uploaded_at) :=
    ⟨fun _ _ _ h₁ h₂ => Nat.le_trans h₁ h₂⟩
  unfold Repository.GetProcessingOrders
  refine ⟨(List.perm_insertionSort _ _).map _, ?_, ?_⟩
  · rw [List.pairwise_map]
    exact List.sorted_insertionSort (fun a b : OrderRow => a.uploaded_at ≤ b.uploaded_at) _
  · intro o ho
    obtain ⟨r, hr, rfl⟩ := List.mem_map.mp ho
    rw [List.mem_insertionSort, List.mem_filter] at hr
    have hst : r.status = "NEW" ∨ r.status = "PROCESSING" := by simpa using hr.2
    refine ⟨hst, ?_, ?_⟩
    · rcases hst with h | h <;> simp only [h] <;> decide
    · rcases hst with h | h <;> simp only [h] <;> decide

/-- C17 (witness): of four stored orders the two unresolved ones are returned, the one
uploaded at time 3 before the one uploaded at time 7. -/
theorem GetProcessingOrders_unresolved_sorted_witness :
    Repository.GetProcessingOrders
        ⟨[⟨1, "18", "PROCESSING", 0, 7⟩, ⟨1, "26", "PROCESSED", 5, 1⟩, ⟨2, "34", "NEW", 0, 3⟩,
          ⟨2, "42", "INVALID", 0, 2⟩], [], []⟩
      = [⟨"34", "NEW", 0, 3⟩, ⟨"18", "PROCESSING", 0, 7⟩]
    ∧ (Repository.GetProcessingOrders
        ⟨[⟨1, "18", "PROCESSING", 0, 7⟩, ⟨1, "26", "PROCESSED", 5, 1⟩, ⟨2, "34", "NEW", 0, 3⟩,
          ⟨2, "42", "INVALID", 0, 2⟩], [], []⟩).Pairwise (fun a b => a.CreatedAt ≤ b.CreatedAt) :=
  ⟨by decide!, (GetProcessingOrders_unresolved_sorted _).2.1⟩

/-- C19 (counterexample): order `12345678903` of user 1 is stored with status `PROCESSING`
and the accrual system answers HTTP 204; the loop body leaves the stored status `NEW`.  The
state is reached from the empty ledger: the order is uploaded and a tick gets the answer
`PROCESSING`; the next tick, answered with HTTP 204, sets the status back to `NEW`. -/
theorem no_content_resets_PROCESSING_to_NEW :
    OrderService.startAccrualCheck.body (.response 204 none)
        ⟨[⟨1, "12345678903", "PROCESSING", 0, 0⟩], [], []⟩ ⟨"12345678903", "PROCESSING", 0, 0⟩
      = ⟨[⟨1, "12345678903", "NEW", 0, 0⟩], [], []⟩
    ∧ runCalls Ledger.empty
        [.CreateOrder 1 "12345678903" 0,
         .accrualCheck (fun _ => .response 200 (some ⟨"12345678903", "PROCESSING", 0⟩))]
      = ⟨[⟨1, "12345678903", "PROCESSING", 0, 0⟩], [], []⟩
    ∧ runCalls Ledger.empty
        [.CreateOrder 1 "12345678903" 0,
         .accrualCheck (fun _ => .response 200 (some ⟨"12345678903", "PROCESSING", 0⟩)),
         .accrualCheck (fun _ => .response 204 none)]
      = ⟨[⟨1, "12345678903", "NEW", 0, 0⟩], [], []⟩ := by
  decide!

/-- C19 (amended): when the accrual system answers HTTP 204, `checkAccrualStatus` reports
status `NEW` with accrual 0 and no error, and the loop body writes that result to the stored
order: the orders are the old ones with status `NEW` and accrual 0 set on the order queried,
the balances and the withdrawals are unchanged; when the stored order has status `NEW` and
accrual 0 the whole ledger is unchanged; a stored order is still among the unresolved orders
after the pass. -/
theorem startAccrualCheck_body_no_content (db : Ledger) (order : Order)
    (body : Option accrualResponse) :
    OrderService.checkAccrualStatus (.response 204 body) order.Number = .ok ("NEW", 0)
      ∧ OrderService.startAccrualCheck.body (.response 204 body) db order
        = ⟨updateOrder db.orders order.Number "NEW" 0, db.user_balances, db.withdrawals⟩
      ∧ ((∀ r ∈ db.orders, r.number = order.Number → r.status = "NEW" ∧ r.accrual = 0) →
          OrderService.startAccrualCheck.body (.response 204 body) db order = db)
      ∧ ((∃ r ∈ db.orders, r.number = order.Number) →
          ∃ o ∈ Repository.GetProcessingOrders
              (OrderService.startAccrualCheck.body (.response 204 body) db order),
            o.Number = order.Number) := by
  have hc : ¬ (("NEW" : String) = "PROCESSED" ∧ (0 : ℚ) > 0) := fun h => absurd h.2 (lt_irrefl 0)
  have hbody := body_of_ok_no_credit (.response 204 body) db order "NEW" 0
    (checkAccrualStatus_204 body order.Number) hc
  refine ⟨checkAccrualStatus_204 body order.Number, hbody, ?_, ?_⟩
  swap
  · rintro ⟨r, hr, hn⟩
    exact body_keeps_unresolved db order (.response 204 body) r hr hn (Or.inl ⟨body, rfl⟩)
  intro hall
  rw [hbody]
  have hrows : updateOrder db.orders order.Number "NEW" 0 = db.orders := by
    unfold updateOrder
    conv_rhs => rw [← List.map_id db.orders]
    apply List.map_congr_left
    intro r hr
    by_cases hn : r.number = order.Number
    · obtain ⟨h1, h2⟩ := hall r hr hn
      rw [if_pos hn, ← h1, ← h2]
      rfl
    · rw [if_neg hn]
      rfl
  rw [hrows]

/-- C19 (witness): order `12345678903` with status `NEW` and accrual 0, user 1 with balance
(7, 0): the pass answered with HTTP 204 changes nothing. -/
theorem startAccrualCheck_body_no_content_witness :
    OrderService.startAccrualCheck.body (.response 204 none)
        ⟨[⟨1, "12345678903", "NEW", 0, 0⟩], [⟨1, 7, 0⟩], []⟩ ⟨"12345678903", "NEW", 0, 0⟩
      = ⟨[⟨1, "12345678903", "NEW", 0, 0⟩], [⟨1, 7, 0⟩], []⟩ :=
  (startAccrualCheck_body_no_content ⟨[⟨1, "12345678903", "NEW", 0, 0⟩], [⟨1, 7, 0⟩], []⟩
    ⟨"12345678903", "NEW", 0, 0⟩ none).2.2.1
    (fun r hr _ => by rw [List.mem_singleton.mp hr]; exact ⟨rfl, rfl⟩)

end Gophermart
